import Mathlib

/-
Shallow embedding of the text-normalization and interval-parsing core of the
bucharest-tap-water repository (src/utils.py, src/report.py).

Modelling conventions:
* Python `str` is modelled as `List Char`; Python `float` is modelled as the
  exact rational type `Q` below (every numeric literal and arithmetic step in
  the source is an exact decimal operation, so exact rational arithmetic
  agrees with the source's own test expectations).  Exotic float-literal
  forms accepted by Python's `float()` (inf/nan, underscores between digits,
  non-ASCII digits) do not occur in this corpus and are outside the modelled
  grammar.
* A Python function that can raise is modelled as returning `Res α`: either
  `.ok` or `.err e` where `e` records the exception kind (`ValueError` with
  its message, `IndexError`, `TypeError`).
-/

namespace TapWater

/-- Exception kinds raised by the modelled code.  `valueError` carries the
message built by the corresponding f-string in the source. -/
inductive PyErr : Type
  | valueError (msg : List Char)
  | indexError
  | typeError
deriving DecidableEq

/-- Result of a Python call: a value or a raised exception. -/
inductive Res (α : Type) : Type
  | ok (a : α)
  | err (e : PyErr)
deriving DecidableEq

/-- Exact rationals with executable (kernel-reducible) arithmetic, modelling
Python floats.  All constructed values are kept in normalized form
(gcd-reduced, positive denominator), so structural equality is value
equality on every value the embedding produces. -/
structure Q where
  n : Int
  d : Nat
deriving DecidableEq

/-- Divide an integer by a natural number that divides it. -/
def intDivNat (i : Int) (g : Nat) : Int :=
  match i with
  | .ofNat m => Int.ofNat (m / g)
  | .negSucc m => -(Int.ofNat ((m + 1) / g))

/-- Normalized rational from numerator and denominator. -/
def Q.norm (n : Int) (d : Nat) : Q :=
  if d = 0 then ⟨0, 1⟩
  else ⟨intDivNat n (Nat.gcd n.natAbs d), d / Nat.gcd n.natAbs d⟩

def Q.neg (a : Q) : Q := ⟨-a.n, a.d⟩

def Q.add (a b : Q) : Q := Q.norm (a.n * b.d + b.n * a.d) (a.d * b.d)

def Q.sub (a b : Q) : Q := Q.norm (a.n * b.d - b.n * a.d) (a.d * b.d)

/-- Multiplication by a power of ten (used for positive float exponents). -/
def Q.mulPow10 (a : Q) (e : Nat) : Q := Q.norm (a.n * 10 ^ e) a.d

/-- Division by a power of ten (used for negative float exponents). -/
def Q.divPow10 (a : Q) (e : Nat) : Q := Q.norm a.n (a.d * 10 ^ e)

/-- Division by a natural number (the source divides only by 100). -/
def Q.divNat (a : Q) (k : Nat) : Q := Q.norm a.n (a.d * k)

/-- Comparison `a <= b` (denominators are positive on all produced values). -/
def Q.le (a b : Q) : Bool := decide (a.n * b.d ≤ b.n * a.d)

/-- Mathematical floor, matching Python `math.floor` semantics of `%`. -/
def Q.floor (a : Q) : Int :=
  match a.n with
  | .ofNat m => Int.ofNat (m / a.d)
  | .negSucc m => -(Int.ofNat ((m + 1 + (a.d - 1)) / a.d))

/-- Python `x % 1` on floats: the fractional part `x - floor x`. -/
def Q.mod1 (a : Q) : Q := Q.sub a ⟨Q.floor a, 1⟩

instance (n : Nat) : OfNat Q n := ⟨⟨Int.ofNat n, 1⟩⟩

instance : OfScientific Q :=
  ⟨fun m b e => if b then Q.norm (Int.ofNat m) (10 ^ e) else ⟨Int.ofNat (m * 10 ^ e), 1⟩⟩

/-- String literal to character list, the representation of Python `str`. -/
def toL (s : String) : List Char := s.toList

/-- Python `str.isspace` on a single character (the whitespace characters
relevant to this corpus). -/
def pySpace (c : Char) : Bool :=
  c = ' ' || c = '\t' || c = '\n' || c = '\x0d' || c = '\x0b' || c = '\x0c'

/-- Python `str.strip()`: remove leading and trailing whitespace. -/
def pyStrip (l : List Char) : List Char :=
  ((l.dropWhile pySpace).reverse.dropWhile pySpace).reverse

/-- Python `str.isdigit()`: nonempty and all characters are digits. -/
def pyIsdigit (l : List Char) : Bool :=
  !l.isEmpty && l.all Char.isDigit

/-- Python `str.find` for a single character: index of first occurrence,
`none` where Python returns -1. -/
def pyFind : List Char → Char → Option Nat
  | [], _ => none
  | c :: cs, t => if c = t then some 0 else (pyFind cs t).map (· + 1)

/-- Numeric value of a digit string. -/
def digitsToNat (l : List Char) : Nat :=
  l.foldl (fun n c => n * 10 + (c.toNat - '0'.toNat)) 0

/-- Exponent suffix of a float literal (after the `e`/`E`). -/
def expPart (m : Q) (r : List Char) : Option Q :=
  let (pos, r1) : Bool × List Char :=
    match r with
    | '+' :: t => (true, t)
    | '-' :: t => (false, t)
    | _ => (true, r)
  let ds := r1.takeWhile Char.isDigit
  if ds.isEmpty || !(r1.dropWhile Char.isDigit).isEmpty then none
  else some (if pos then Q.mulPow10 m (digitsToNat ds) else Q.divPow10 m (digitsToNat ds))

/-- Python `float(str)` on the decimal grammar: optional surrounding
whitespace, optional sign, digits with at most one point (at least one digit
overall), optional exponent.  Returns `none` where Python raises
`ValueError`. -/
def pyFloat (s : List Char) : Option Q :=
  let t := pyStrip s
  let (neg, t1) : Bool × List Char :=
    match t with
    | '+' :: r => (false, r)
    | '-' :: r => (true, r)
    | _ => (false, t)
  let ip := t1.takeWhile Char.isDigit
  let r1 := t1.dropWhile Char.isDigit
  let (fp, r2) : List Char × List Char :=
    match r1 with
    | '.' :: r => (r.takeWhile Char.isDigit, r.dropWhile Char.isDigit)
    | _ => ([], r1)
  if ip.isEmpty && fp.isEmpty then none
  else
    let mant := Q.norm (Int.ofNat (digitsToNat ip * 10 ^ fp.length + digitsToNat fp)) (10 ^ fp.length)
    let mant := if neg then Q.neg mant else mant
    match r2 with
    | [] => some mant
    | 'e' :: r3 => expPart mant r3
    | 'E' :: r3 => expPart mant r3
    | _ => none

/-- Message of `ValueError(f'Cannot convert value "{value}" into range.')`
raised in `parse_range` (src/utils.py line 235). -/
def rangeCastMsg (v : List Char) : List Char :=
  toL "Cannot convert value \x22" ++ v ++ toL "\x22 into range."

/-- Message of `ValueError(f'{value} cannot be converted to interval')`
raised in `parse_range` (src/utils.py line 261). -/
def intervalMsg (v : List Char) : List Char :=
  v ++ toL " cannot be converted to interval"

/-- Message of the `ValueError` raised in `parse_value`
(src/utils.py lines 205-206). -/
def ambiguousMsg (v : List Char) : List Char :=
  toL "\x22" ++ v ++
    toL "\x22 must contain exactly 1 valid value to be convertible from range to single value"

/-- Message of the `ValueError` raised by Python `float()` itself. -/
def floatConvMsg (v : List Char) : List Char :=
  toL "could not convert string to float: " ++ v

/-- The tuple `comparators` of src/utils.py line 232. -/
def comparators : List Char := ['<', '≤', '>', '≥']

/-- Membership test of src/utils.py line 234: `value[0]` is a comparator or
a digit. -/
def compOrDigit (c : Char) : Bool := comparators.contains c || c.isDigit

/-- The character class accumulated by the bound/prefix scans:
`ch.isdigit() or ch == '.'`. -/
def scalarChar (c : Char) : Bool := c.isDigit || c = '.'

/-- `lt_pos` of src/utils.py line 239: one past the first `<`, else one past
the first `≤`, else 0 ("not found"). -/
def ltPos (v : List Char) : Nat :=
  match pyFind v '<' with
  | some i => i + 1
  | none =>
    match pyFind v '≤' with
    | some i => i + 1
    | none => 0

/-- `ht_pos` of src/utils.py line 248: one past the first `>`, else one past
the first `≥`, else 0. -/
def htPos (v : List Char) : Nat :=
  match pyFind v '>' with
  | some i => i + 1
  | none =>
    match pyFind v '≥' with
    | some i => i + 1
    | none => 0

/-- The scan of src/utils.py lines 241-246: skip whitespace, accumulate
digit/point characters, stop at the first other character. -/
def scanTail : List Char → List Char
  | [] => []
  | c :: cs => if pySpace c then scanTail cs else if scalarChar c then c :: scanTail cs else []

/-- Bound scan starting at position `p` of the text. -/
def scanBound (v : List Char) (p : Nat) : List Char := scanTail (v.drop p)

/-- The accumulated high-bound string `range_[1]` (scanned after `<`/`≤`). -/
def boundStrHi (v : List Char) : List Char :=
  if ltPos v = 0 then [] else scanBound v (ltPos v)

/-- The accumulated low-bound string `range_[0]` (scanned after `>`/`≥`). -/
def boundStrLo (v : List Char) : List Char :=
  if htPos v = 0 then [] else scanBound v (htPos v)

/-- `float(range_[i]) if range_[i] else None` of src/utils.py lines 257-258:
empty bound strings map to absent, nonempty ones go through `float`, whose
failure raises. -/
def boundToOpt (b : List Char) : Res (Option Q) :=
  if b = [] then .ok none
  else
    match pyFloat b with
    | some q => .ok (some q)
    | none => .err (.valueError (floatConvMsg b))

/-- `parse_range` of src/utils.py lines 214-262 (the IntervalParser). -/
def parse_range (value : List Char) : Res (Option Q × Option Q) :=
  match pyFloat value with
  | some q => .ok (none, some q)
  | none =>
    match value with
    | [] => .err .indexError
    | c :: _ =>
      if compOrDigit c then
        match boundToOpt (boundStrLo value) with
        | .err e => .err e
        | .ok lo =>
          match boundToOpt (boundStrHi value) with
          | .err e => .err e
          | .ok hi =>
            if lo.isNone && hi.isNone then .err (.valueError (intervalMsg value))
            else .ok (lo, hi)
      else .err (.valueError (rangeCastMsg value))

/-- The leading digit/point run consumed by the loop of src/utils.py
lines 188-193. -/
def numPre (v : List Char) : List Char := v.takeWhile scalarChar

/-- Python truthiness filtering of one optional bound: `None` and `0.0` are
falsy and dropped by `filter(None, range_)`. -/
def optTruthy : Option Q → List Q
  | none => []
  | some q => if q.n = 0 then [] else [q]

/-- `list(filter(None, range_))` of src/utils.py line 203. -/
def truthyBounds (lo hi : Option Q) : List Q := optTruthy lo ++ optTruthy hi

/-- `diff = val % 1 / 100 or 0.01` of src/utils.py line 208. -/
def pyDiff (val : Q) : Q :=
  if (Q.divNat (Q.mod1 val) 100).n = 0 then (0.01 : Q) else Q.divNat (Q.mod1 val) 100

/-- `parse_value` of src/utils.py lines 182-211 (the ScalarParser). -/
def parse_value (value : List Char) : Res Q :=
  if numPre value = [] then
    match parse_range value with
    | .err e => .err e
    | .ok (lo, hi) =>
      match truthyBounds lo hi with
      | [val] =>
        if lo.isSome then .ok (Q.add val (pyDiff val)) else .ok (Q.sub val (pyDiff val))
      | _ => .err (.valueError (ambiguousMsg value))
  else
    match pyFloat (numPre value) with
    | some q => .ok q
    | none => .err (.valueError (floatConvMsg (numPre value)))

/-- A raw grid cell as delivered by the table extractor: either a text
string, or a non-string value (a number or NaN already parsed by the
extractor).  `normalize_table` only ever asks `isinstance(cell, str)` and
never reads a non-string cell's numeric content, so non-string cells are
collapsed to `.other`. -/
inductive Cell : Type
  | str (s : List Char)
  | other
deriving DecidableEq

/-- The text of a string cell (junk `[]` on non-string cells; used only
where all cells are known to be strings). -/
def cellText : Cell → List Char
  | .str s => s
  | .other => []

/-- `isinstance(row[0], str) and row[0].isdigit()` on a single cell. -/
def digitLeadCell : Cell → Bool
  | .str s => pyIsdigit s
  | .other => false

/-- A row whose first cell is a pure-digit string (a new-parameter marker). -/
def digitLead : List Cell → Bool
  | [] => false
  | c :: _ => digitLeadCell c

/-- Literal `'Unnamed'` checked by `column.startswith('Unnamed')`. -/
def unnamedL : List Char := toL "Unnamed"

/-- `p` is a prefix of `s` (Python `str.startswith`). -/
def beginsWith : List Char → List Char → Bool
  | [], _ => true
  | _ :: _, [] => false
  | p :: ps, c :: cs => p = c && beginsWith ps cs

/-- The inner loop of src/utils.py lines 171-174: for every string cell of
the raw row, space-join it into the accumulator at the same column and
strip; non-string cells are skipped; a string cell beyond the accumulator's
length raises `IndexError`. -/
def mergeRow : List (List Char) → List Cell → Res (List (List Char))
  | cur, [] => .ok cur
  | [], c :: cs =>
    match c with
    | .str _ => .err .indexError
    | .other => mergeRow [] cs
  | x :: xs, c :: cs =>
    match c with
    | .str s =>
      match mergeRow xs cs with
      | .err e => .err e
      | .ok rest => .ok (pyStrip (x ++ ' ' :: s) :: rest)
    | .other =>
      match mergeRow xs cs with
      | .err e => .err e
      | .ok rest => .ok (x :: rest)

/-- The header-fragment merge of src/utils.py lines 156-159: like
`mergeRow` but cells whose text starts with `'Unnamed'` are skipped too. -/
def mergeHeaderRow : List (List Char) → List Cell → Res (List (List Char))
  | cur, [] => .ok cur
  | [], c :: cs =>
    match c with
    | .str s => if beginsWith unnamedL s then mergeHeaderRow [] cs else .err .indexError
    | .other => mergeHeaderRow [] cs
  | x :: xs, c :: cs =>
    match c with
    | .str s =>
      if beginsWith unnamedL s then
        match mergeHeaderRow xs cs with
        | .err e => .err e
        | .ok rest => .ok (x :: rest)
      else
        match mergeHeaderRow xs cs with
        | .err e => .err e
        | .ok rest => .ok (pyStrip (x ++ ' ' :: s) :: rest)
    | .other =>
      match mergeHeaderRow xs cs with
      | .err e => .err e
      | .ok rest => .ok (x :: rest)

/-- Step 1 of `normalize_table` (src/utils.py lines 154-159): pop and merge
header fragments while the first cell is a non-digit string; evaluating the
loop condition on an empty grid or an empty row raises `IndexError`.
Returns the finished header row and the remaining rows. -/
def headerLoop : List (List Char) → List (List Cell) → Res (List (List Char) × List (List Cell))
  | _, [] => .err .indexError
  | acc, r :: rest =>
    match r with
    | [] => .err .indexError
    | c0 :: _ =>
      match c0 with
      | .str s =>
        if pyIsdigit s then .ok (acc, r :: rest)
        else
          match mergeHeaderRow acc r with
          | .err e => .err e
          | .ok acc2 => headerLoop acc2 rest
      | .other => .ok (acc, r :: rest)

/-- Step 2 of `normalize_table` (src/utils.py lines 161-177): a digit-leading
row flushes the current accumulator and starts a fresh one sized to that
row; every row is then merged into the current accumulator; the final
accumulator is flushed at the end. -/
def step2 : List (List Cell) → List (List Char) → List (List (List Char)) → Res (List (List (List Char)))
  | [], cur, out => .ok (out ++ [cur])
  | r :: rest, cur, out =>
    match r with
    | [] => .err .indexError
    | c0 :: _ =>
      if digitLeadCell c0 then
        match mergeRow (List.replicate r.length []) r with
        | .err e => .err e
        | .ok cur2 => step2 rest cur2 (out ++ [cur])
      else
        match mergeRow cur r with
        | .err e => .err e
        | .ok cur2 => step2 rest cur2 out

/-- `normalize_table` of src/utils.py lines 142-179 (the RowAssembler),
taking the raw grid `data` (the extractor's column row already inserted at
position 0, as done on line 149).  The result's first row is the header,
the rest are the assembled parameter rows. -/
def normalize_table (data : List (List Cell)) : Res (List (List (List Char))) :=
  match data with
  | [] => .err .indexError
  | d0 :: _ =>
    match headerLoop (List.replicate d0.length []) data with
    | .err e => .err e
    | .ok (h, rest) => step2 rest h []

/-- The `value` field of a measurement record: a parsed number or the
untouched original cell text. -/
inductive RVal : Type
  | num (q : Q)
  | txt (s : List Char)
deriving DecidableEq

/-- The `range` field of a measurement record: a parsed interval (a Python
tuple) or the untouched original cell text. -/
inductive RRange : Type
  | tup (lo hi : Option Q)
  | txt (s : List Char)
deriving DecidableEq

/-- A measurement record as stored by `parse_report` (only the fields the
range evaluator reads). -/
structure MRec where
  value : RVal
  range : RRange
deriving DecidableEq

/-- Lexicographic string comparison by code point, Python `str <= str`. -/
def lexLE : List Char → List Char → Bool
  | [], _ => true
  | _ :: _, [] => false
  | a :: as, b :: bs => if a.val < b.val then true else if b.val < a.val then false else lexLE as bs

/-- Python `x <= y` on record values: numbers compare numerically, strings
lexicographically, and a mixed comparison raises `TypeError`. -/
def pyLE : RVal → RVal → Res Bool
  | .num a, .num b => .ok (Q.le a b)
  | .txt a, .txt b => .ok (lexLE a b)
  | _, _ => .err .typeError

/-- `is_in_range` of src/report.py lines 6-13: absent bounds are replaced by
the value itself, then the chained comparison `low <= value <= high` is
evaluated (short-circuiting after a false first comparison, exactly as
Python does). -/
def is_in_range (v : RVal) (lo hi : Option Q) : Res Bool :=
  match pyLE (match lo with | none => v | some q => .num q) v with
  | .err e => .err e
  | .ok false => .ok false
  | .ok true => pyLE v (match hi with | none => v | some q => .num q)

/-- `get_abnormal_params` of src/report.py lines 16-23: records whose range
is a tuple are tested; those failing the range test are collected, in
order. -/
def get_abnormal_params : List (List Char × MRec) → Res (List (List Char × MRec))
  | [] => .ok []
  | (k, m) :: rest =>
    match m.range with
    | .tup lo hi =>
      (match is_in_range m.value lo hi with
       | .err e => .err e
       | .ok b =>
         match get_abnormal_params rest with
         | .err e => .err e
         | .ok r => .ok (if b then r else (k, m) :: r))
    | _ => get_abnormal_params rest

/-- The per-row value/range mapping of `parse_report` (src/utils.py
lines 114-126): try `parse_range` on the range cell, falling back to its
raw text on `ValueError`; only when it succeeded, try `parse_value` on the
value cell, falling back to its raw text on `ValueError`.  Exceptions other
than `ValueError` (the unguarded `IndexError` on empty cells) propagate. -/
def mapCells (v r : List Char) : Res MRec :=
  match parse_range r with
  | .ok (lo, hi) =>
    (match parse_value v with
     | .ok q => .ok ⟨.num q, .tup lo hi⟩
     | .err (.valueError _) => .ok ⟨.txt v, .tup lo hi⟩
     | .err e => .err e)
  | .err (.valueError _) => .ok ⟨.txt v, .txt r⟩
  | .err e => .err e

/-- C9: on the empty string, `parse_range` (and `parse_value`, which
delegates to it) raises `IndexError` from the unguarded `value[0]` access
after the whole-string float conversion fails, not the documented
`UnparseableInterval` failure. -/
theorem c9_empty_string_index_error :
    parse_range [] = .err .indexError ∧ parse_value [] = .err .indexError := by
  decide

/-- C1: the claim says the range evaluator skips records whose value did not
parse to a number and always returns a set; in fact `get_abnormal_params`
only checks that the range is a tuple, so a record with a parsed interval
range and a textual value (produced by the mapper exactly as shown here)
makes the comparison raise `TypeError` instead of being skipped. -/
theorem c1_evaluator_type_error :
    mapCells (toL "Acceptabila") (toL "≥6.5; ≤9.5") =
      .ok ⟨.txt (toL "Acceptabila"), .tup (some 6.5) (some 9.5)⟩ ∧
    get_abnormal_params
      [(toL "ph", ⟨.txt (toL "Acceptabila"), .tup (some 6.5) (some 9.5)⟩)] =
      .err .typeError := by
  decide

/-- C5: a text that parses entirely as a number `n` yields the interval
`(absent, n)`, and the four interval test vectors of the spec hold. -/
theorem c5_bare_number_upper_bound :
    (∀ (v : List Char) (q : Q), pyFloat v = some q → parse_range v = .ok (none, some q)) ∧
    parse_range (toL "0") = .ok (none, some 0) ∧
    parse_range (toL "≤0.002") = .ok (none, some 0.002) ∧
    parse_range (toL "≥0.002") = .ok (some 0.002, none) ∧
    parse_range (toL "0.0020") = .ok (none, some 0.002) := by
  refine ⟨?_, by decide, by decide, by decide, by decide⟩
  intro v q h
  unfold parse_range
  rw [h]

/-- Witness for `c5_bare_number_upper_bound` at the text "45". -/
theorem c5_bare_number_witness :
    pyFloat (toL "45") = some 45 ∧ parse_range (toL "45") = .ok (none, some 45) :=
  ⟨by decide, c5_bare_number_upper_bound.1 (toL "45") 45 (by decide)⟩

/-- C8: every interval `parse_range` returns has at least one bound
present; the both-absent case raises instead of returning. -/
theorem c8_interval_invariant (v : List Char) (lo hi : Option Q)
    (h : parse_range v = .ok (lo, hi)) : lo ≠ none ∨ hi ≠ none := by
  by_contra hc
  push_neg at hc
  obtain ⟨hl, hh⟩ := hc
  subst hl
  subst hh
  unfold parse_range at h
  split at h
  · simp at h
  · split at h
    · simp at h
    · split at h
      · split at h
        · simp at h
        · split at h
          · simp at h
          · split at h
            · simp at h
            · rename_i hcond
              simp only [Res.ok.injEq, Prod.mk.injEq] at h
              obtain ⟨h1, h2⟩ := h
              rw [h1, h2] at hcond
              simp at hcond
      · simp at h

/-- Witness for `c8_interval_invariant` at the text "0". -/
theorem c8_interval_witness :
    parse_range (toL "0") = .ok (none, some 0) ∧
    ((none : Option Q) ≠ none ∨ (some (0 : Q)) ≠ none) :=
  ⟨by decide, c8_interval_invariant (toL "0") none (some 0) (by decide)⟩

/-- C7: the record mapper falls back to the raw range text when the range
cell fails to parse with `ValueError` (leaving the value text untouched),
and only on range success does it parse the value cell, falling back to the
raw value text when that fails with `ValueError`; none of these paths is
fatal. -/
theorem c7_mapper_fallback (v r : List Char) :
    (∀ m, parse_range r = .err (.valueError m) → mapCells v r = .ok ⟨.txt v, .txt r⟩) ∧
    (∀ lo hi, parse_range r = .ok (lo, hi) →
      (∀ q, parse_value v = .ok q → mapCells v r = .ok ⟨.num q, .tup lo hi⟩) ∧
      (∀ m, parse_value v = .err (.valueError m) → mapCells v r = .ok ⟨.txt v, .tup lo hi⟩)) := by
  refine ⟨?_, ?_⟩
  · intro m hm
    unfold mapCells
    rw [hm]
  · intro lo hi hr
    refine ⟨?_, ?_⟩
    · intro q hq
      unfold mapCells
      rw [hr, hq]
    · intro m hm
      unfold mapCells
      rw [hr, hm]

/-- Witness for `c7_mapper_fallback`: an unparseable range cell stores both
raw texts. -/
theorem c7_mapper_witness :
    mapCells (toL "x") (toL "Acceptabil") = .ok ⟨.txt (toL "x"), .txt (toL "Acceptabil")⟩ :=
  (c7_mapper_fallback (toL "x") (toL "Acceptabil")).1
    (rangeCastMsg (toL "Acceptabil")) (by decide)

/-- C2 counterexample: the interval parsed from "≤0" has exactly one bound
present (the high bound, 0), yet `parse_value` fails with the
`AmbiguousScalar` message instead of returning `0 - epsilon`, because the
truthiness filter drops a zero bound. -/
theorem c2_zero_bound_counterexample :
    parse_range (toL "≤0") = .ok (none, some 0) ∧
    parse_value (toL "≤0") = .err (.valueError (ambiguousMsg (toL "≤0"))) := by
  decide

/-- C2 amended: on the delegation path, `parse_value` counts the bounds
that are present AND nonzero (`filter(None, ...)` truthiness): with exactly
one such bound it returns it plus epsilon when the low slot is present,
minus epsilon otherwise; with zero or two such bounds it fails with the
`AmbiguousScalar` message. -/
theorem c2_scalar_from_interval (v : List Char) (h0 : numPre v = [])
    (lo hi : Option Q) (hr : parse_range v = .ok (lo, hi)) :
    (∀ b, truthyBounds lo hi = [b] →
        parse_value v =
          (if lo.isSome then .ok (Q.add b (pyDiff b)) else .ok (Q.sub b (pyDiff b)))) ∧
    ((truthyBounds lo hi).length ≠ 1 →
        parse_value v = .err (.valueError (ambiguousMsg v))) := by
  refine ⟨?_, ?_⟩
  · intro b hb
    simp only [parse_value, h0, hr, hb]
    rfl
  · intro hlen
    cases ht : truthyBounds lo hi with
    | nil =>
      simp only [parse_value, h0, hr, ht]
      rfl
    | cons a tl =>
      cases tl with
      | nil =>
        rw [ht] at hlen
        simp at hlen
      | cons b tl2 =>
        simp only [parse_value, h0, hr, ht]
        rfl

/-- Witness for `c2_scalar_from_interval` at the text "<45". -/
theorem c2_scalar_witness :
    parse_value (toL "<45") = .ok (Q.sub 45 (pyDiff 45)) ∧ Q.sub 45 (pyDiff 45) = 44.99 :=
  ⟨by
    have h := (c2_scalar_from_interval (toL "<45") (by decide) none (some 45) (by decide)).1
      45 (by decide)
    exact h,
   by decide⟩

/-- C4 counterexample: "1.2.3" starts with a digit, but the maximal leading
digit/point run "1.2.3" is not a valid number, so `parse_value` raises the
float conversion error instead of returning a number. -/
theorem c4_prefix_counterexample :
    parse_value (toL "1.2.3") = .err (.valueError (floatConvMsg (toL "1.2.3"))) := by
  decide

/-- C4 amended: the ten scalar test vectors hold, and for every text with a
nonempty leading digit/point run, `parse_value` returns `float(run)` when
that run converts, and raises the float conversion error otherwise. -/
theorem c4_scalar_test_vectors :
    parse_value (toL "0") = .ok 0 ∧
    parse_value (toL "4.3 / 4.4") = .ok 4.3 ∧
    parse_value (toL "45") = .ok 45 ∧
    parse_value (toL "<45") = .ok 44.99 ∧
    parse_value (toL "< 45") = .ok 44.99 ∧
    parse_value (toL ">45") = .ok 45.01 ∧
    parse_value (toL "≥ 45") = .ok 45.01 ∧
    parse_value (toL "0.002") = .ok 0.002 ∧
    parse_value (toL "≤0.002") = .ok 0.00198 ∧
    parse_value (toL "≥0.002") = .ok 0.00202 ∧
    ∀ v, numPre v ≠ [] →
      parse_value v =
        (match pyFloat (numPre v) with
         | some q => .ok q
         | none => .err (.valueError (floatConvMsg (numPre v)))) := by
  refine ⟨by decide, by decide, by decide, by decide, by decide, by decide, by decide,
    by decide, by decide, by decide, ?_⟩
  intro v h
  unfold parse_value
  rw [if_neg h]

/-- Helper: converting an empty bound string yields an absent bound. -/
theorem boundToOpt_nil : boundToOpt [] = .ok none := rfl

/-- Helper: converting a nonempty float-convertible bound string. -/
theorem boundToOpt_conv {b : List Char} {q : Q} (hb : b ≠ []) (h : pyFloat b = some q) :
    boundToOpt b = .ok (some q) := by
  unfold boundToOpt
  rw [if_neg hb, h]

/-- Helper: converting a nonempty unconvertible bound string raises. -/
theorem boundToOpt_fail {b : List Char} (hb : b ≠ []) (h : pyFloat b = none) :
    boundToOpt b = .err (.valueError (floatConvMsg b)) := by
  unfold boundToOpt
  rw [if_neg hb, h]

/-- Helper: `parse_range` on a non-number text whose first character fails
the comparator/digit test. -/
theorem parse_range_badc {c : Char} {rest : List Char}
    (hf : pyFloat (c :: rest) = none) (hcc : compOrDigit c = false) :
    parse_range (c :: rest) = .err (.valueError (rangeCastMsg (c :: rest))) := by
  simp only [parse_range, hf, hcc]
  rfl

/-- Helper: `parse_range` on a non-number text with a good first character,
in terms of the two bound conversions when both succeed. -/
theorem parse_range_bounds {c : Char} {rest : List Char} {lo hi : Option Q}
    (hf : pyFloat (c :: rest) = none) (hcc : compOrDigit c = true)
    (hbl : boundToOpt (boundStrLo (c :: rest)) = .ok lo)
    (hbh : boundToOpt (boundStrHi (c :: rest)) = .ok hi) :
    parse_range (c :: rest) =
      (if lo.isNone && hi.isNone then .err (.valueError (intervalMsg (c :: rest)))
       else .ok (lo, hi)) := by
  simp only [parse_range, hf, hcc, hbl, hbh]
  rfl

/-- Helper: `parse_range` propagates a failing low-bound conversion. -/
theorem parse_range_lo_fail {c : Char} {rest : List Char} {e : PyErr}
    (hf : pyFloat (c :: rest) = none) (hcc : compOrDigit c = true)
    (hbl : boundToOpt (boundStrLo (c :: rest)) = .err e) :
    parse_range (c :: rest) = .err e := by
  simp only [parse_range, hf, hcc, hbl]
  rfl

/-- Helper: `parse_range` propagates a failing high-bound conversion. -/
theorem parse_range_hi_fail {c : Char} {rest : List Char} {lo : Option Q} {e : PyErr}
    (hf : pyFloat (c :: rest) = none) (hcc : compOrDigit c = true)
    (hbl : boundToOpt (boundStrLo (c :: rest)) = .ok lo)
    (hbh : boundToOpt (boundStrHi (c :: rest)) = .err e) :
    parse_range (c :: rest) = .err e := by
  simp only [parse_range, hf, hcc, hbl, hbh]
  rfl

/-- C3 counterexample: " <5" does not parse entirely as a number and its
first non-space character is the comparator '<', yet `parse_range` fails
with the `UnparseableInterval` message, because the code inspects
`value[0]` (here the space), not the first non-space character. -/
theorem c3_space_counterexample :
    pyFloat (toL " <5") = none ∧
    (toL " <5").dropWhile pySpace = '<' :: toL "5" ∧
    parse_range (toL " <5") = .err (.valueError (rangeCastMsg (toL " <5"))) := by
  decide

/-- C3 amended: for a nonempty text that does not parse entirely as a
number, `parse_range` fails if and only if the FIRST character (not the
first non-space character) is neither a comparator nor a digit, or a
nonempty extracted bound string does not convert to a number, or both
extracted bound strings are empty. -/
theorem c3_first_char_gate (c : Char) (rest : List Char)
    (hf : pyFloat (c :: rest) = none) :
    (∃ e, parse_range (c :: rest) = .err e) ↔
      (compOrDigit c = false ∨
       (boundStrLo (c :: rest) ≠ [] ∧ pyFloat (boundStrLo (c :: rest)) = none) ∨
       (boundStrHi (c :: rest) ≠ [] ∧ pyFloat (boundStrHi (c :: rest)) = none) ∨
       (boundStrLo (c :: rest) = [] ∧ boundStrHi (c :: rest) = [])) := by
  cases hcc : compOrDigit c with
  | false =>
    exact iff_of_true ⟨_, parse_range_badc hf hcc⟩ (Or.inl rfl)
  | true =>
    by_cases hl : boundStrLo (c :: rest) = []
    · have hbl : boundToOpt (boundStrLo (c :: rest)) = .ok none := by rw [hl]; rfl
      by_cases hh : boundStrHi (c :: rest) = []
      · have hbh : boundToOpt (boundStrHi (c :: rest)) = .ok none := by rw [hh]; rfl
        have hpr := parse_range_bounds hf hcc hbl hbh
        simp at hpr
        exact iff_of_true ⟨_, hpr⟩ (Or.inr (Or.inr (Or.inr ⟨hl, hh⟩)))
      · cases hph : pyFloat (boundStrHi (c :: rest)) with
        | none =>
          have hpr := parse_range_hi_fail hf hcc hbl (boundToOpt_fail hh hph)
          exact iff_of_true ⟨_, hpr⟩ (Or.inr (Or.inr (Or.inl ⟨hh, rfl⟩)))
        | some qh =>
          have hpr := parse_range_bounds hf hcc hbl (boundToOpt_conv hh hph)
          simp at hpr
          refine iff_of_false ?_ ?_
          · rintro ⟨e, he⟩
            rw [hpr] at he
            exact Res.noConfusion he
          · rintro (h1 | ⟨h2, _⟩ | ⟨_, h3⟩ | ⟨_, h4⟩)
            · exact Bool.noConfusion h1
            · exact h2 hl
            · exact Option.noConfusion h3
            · exact hh h4
    · cases hpl : pyFloat (boundStrLo (c :: rest)) with
      | none =>
        have hpr := parse_range_lo_fail hf hcc (boundToOpt_fail hl hpl)
        exact iff_of_true ⟨_, hpr⟩ (Or.inr (Or.inl ⟨hl, rfl⟩))
      | some ql =>
        have hbl := boundToOpt_conv hl hpl
        by_cases hh : boundStrHi (c :: rest) = []
        · have hbh : boundToOpt (boundStrHi (c :: rest)) = .ok none := by rw [hh]; rfl
          have hpr := parse_range_bounds hf hcc hbl hbh
          simp at hpr
          refine iff_of_false ?_ ?_
          · rintro ⟨e, he⟩
            rw [hpr] at he
            exact Res.noConfusion he
          · rintro (h1 | ⟨_, h2⟩ | ⟨h3, _⟩ | ⟨h4, _⟩)
            · exact Bool.noConfusion h1
            · exact Option.noConfusion h2
            · exact h3 hh
            · exact hl h4
        · cases hph : pyFloat (boundStrHi (c :: rest)) with
          | none =>
            have hpr := parse_range_hi_fail hf hcc hbl (boundToOpt_fail hh hph)
            exact iff_of_true ⟨_, hpr⟩ (Or.inr (Or.inr (Or.inl ⟨hh, rfl⟩)))
          | some qh =>
            have hpr := parse_range_bounds hf hcc hbl (boundToOpt_conv hh hph)
            simp at hpr
            refine iff_of_false ?_ ?_
            · rintro ⟨e, he⟩
              rw [hpr] at he
              exact Res.noConfusion he
            · rintro (h1 | ⟨_, h2⟩ | ⟨_, h3⟩ | ⟨h4, _⟩)
              · exact Bool.noConfusion h1
              · exact Option.noConfusion h2
              · exact Option.noConfusion h3
              · exact hl h4

/-- Witness for `c3_first_char_gate` at the text "Acceptabil". -/
theorem c3_gate_witness :
    pyFloat ('A' :: toL "cceptabil") = none ∧
    (∃ e, parse_range ('A' :: toL "cceptabil") = .err e) :=
  ⟨by decide,
   (c3_first_char_gate 'A' (toL "cceptabil") (by decide)).mpr (Or.inl (by decide))⟩

/-- Witness for the general clause of `c4_scalar_test_vectors` at the text
"7.58/21.5°C": only the leading run "7.58" is significant. -/
theorem c4_scalar_witness :
    numPre (toL "7.58/21.5°C") ≠ [] ∧ parse_value (toL "7.58/21.5°C") = .ok 7.58 :=
  ⟨by decide, by
    have h := c4_scalar_test_vectors.2.2.2.2.2.2.2.2.2.2 (toL "7.58/21.5°C") (by decide)
    exact h.trans (by decide)⟩

/-- A cell that is a string with no surrounding whitespace. -/
def cellStripped (c : Cell) : Bool :=
  match c with
  | .str s => decide (pyStrip s = s)
  | .other => false

/-- Helper: stripping is unchanged by one prepended space. -/
theorem pyStrip_space_cons (s : List Char) : pyStrip (' ' :: s) = pyStrip s := rfl

/-- Helper: merging a row of whitespace-clean string cells into a fresh
accumulator of its own width reproduces the row's texts. -/
theorem mergeRow_fresh : ∀ (r : List Cell), (∀ c ∈ r, cellStripped c = true) →
    mergeRow (List.replicate r.length []) r = .ok (r.map cellText) := by
  intro r
  induction r with
  | nil => intro _; rfl
  | cons c cs ih =>
    intro h
    have hc := h c (List.mem_cons_self c cs)
    cases c with
    | other => simp [cellStripped] at hc
    | str s =>
      have hs : pyStrip s = s := by simpa [cellStripped] using hc
      have ih2 := ih (fun c hm => h c (List.mem_cons_of_mem _ hm))
      simp only [List.length_cons, List.replicate_succ, mergeRow, ih2, List.nil_append,
        pyStrip_space_cons, hs, List.map_cons, cellText]

/-- Helper: `step2` on a run of single-row parameters (each digit-leading,
all cells whitespace-clean strings) flushes the incoming accumulator and
reproduces each row verbatim. -/
theorem step2_params : ∀ (ps : List (List Cell)) (cur : List (List Char))
    (out : List (List (List Char))),
    (∀ r ∈ ps, digitLead r = true) →
    (∀ r ∈ ps, ∀ c ∈ r, cellStripped c = true) →
    step2 ps cur out = .ok (out ++ cur :: ps.map (List.map cellText)) := by
  intro ps
  induction ps with
  | nil =>
    intro cur out _ _
    simp [step2]
  | cons r rs ih =>
    intro cur out h1 h2
    have hd : digitLead r = true := h1 r (List.mem_cons_self _ _)
    cases r with
    | nil => simp [digitLead] at hd
    | cons c0 rtl =>
      have hdc : digitLeadCell c0 = true := hd
      have hme := mergeRow_fresh (c0 :: rtl) (h2 _ (List.mem_cons_self _ _))
      simp only [step2, hdc, hme, if_true]
      rw [ih _ _ (fun r hm => h1 r (List.mem_cons_of_mem _ hm))
        (fun r hm => h2 r (List.mem_cons_of_mem _ hm))]
      simp

/-- C6 counterexample: a grid whose single parameter row is already one
physical row is NOT returned identically: the cell " a" comes back
stripped to "a" (each merged cell is space-joined and stripped). -/
theorem c6_strip_counterexample :
    normalize_table
      [[Cell.str (toL "Tabel"), Cell.str (toL "X")],
       [Cell.str (toL "1"), Cell.str (toL " a")]] =
      .ok [[toL "Tabel", toL "X"], [toL "1", toL "a"]] ∧
    toL "a" ≠ toL " a" := by
  decide

/-- C6 amended: on a grid whose header phase succeeds and whose remaining
rows are each a complete parameter row (first cell a pure-digit string) all
of whose cells are strings without surrounding whitespace, assembly returns
exactly the header followed by those rows' texts, column for column. -/
theorem c6_assembly_idempotent (d0 : List Cell) (drest : List (List Cell))
    (h : List (List Char)) (ps : List (List Cell))
    (hhl : headerLoop (List.replicate d0.length []) (d0 :: drest) = .ok (h, ps))
    (h1 : ∀ r ∈ ps, digitLead r = true)
    (h2 : ∀ r ∈ ps, ∀ c ∈ r, cellStripped c = true) :
    normalize_table (d0 :: drest) = .ok (h :: ps.map (List.map cellText)) := by
  simp only [normalize_table]
  rw [hhl]
  simpa using step2_params ps h [] h1 h2

/-- Witness for `c6_assembly_idempotent` on a two-row grid. -/
theorem c6_assembly_witness :
    normalize_table [[Cell.str (toL "Tabel")], [Cell.str (toL "1"), Cell.str (toL "a")]] =
      .ok [[toL "Tabel"], [toL "1", toL "a"]] := by
  have h := c6_assembly_idempotent [Cell.str (toL "Tabel")]
    [[Cell.str (toL "1"), Cell.str (toL "a")]]
    [toL "Tabel"] [[Cell.str (toL "1"), Cell.str (toL "a")]]
    (by decide) (by decide) (by decide)
  exact h.trans (by decide)

/-- Whether an optional cell holds a string (the `isinstance(column, str)`
test on `row[j]` when present). -/
def isStrCell : Option Cell → Bool
  | some (.str _) => true
  | _ => false

/-- Helper: a merge leaves the accumulator length unchanged and leaves
every column whose cell is not a string (absent or non-string) untouched. -/
theorem mergeRow_skip : ∀ (row : List Cell) (cur res : List (List Char)),
    mergeRow cur row = .ok res →
    res.length = cur.length ∧
    ∀ j : Nat, isStrCell (row.get? j) = false → res.get? j = cur.get? j := by
  intro row
  induction row with
  | nil =>
    intro cur res h
    simp only [mergeRow, Res.ok.injEq] at h
    subst h
    exact ⟨rfl, fun j _ => rfl⟩
  | cons c cs ih =>
    intro cur res h
    cases cur with
    | nil =>
      cases c with
      | str s => simp [mergeRow] at h
      | other =>
        simp only [mergeRow] at h
        obtain ⟨hlen, _⟩ := ih [] res h
        have hres : res = [] := List.length_eq_zero.mp (by simpa using hlen)
        subst hres
        exact ⟨rfl, fun j _ => rfl⟩
    | cons x xs =>
      cases c with
      | str s =>
        simp only [mergeRow] at h
        split at h
        · exact absurd h (by simp)
        · rename_i rest hrec
          simp only [Res.ok.injEq] at h
          subst h
          obtain ⟨hlen, hget⟩ := ih xs rest hrec
          refine ⟨by simp [hlen], ?_⟩
          intro j hj
          cases j with
          | zero => simp [isStrCell] at hj
          | succ n =>
            simp only [List.get?_cons_succ]
            exact hget n (by simpa using hj)
      | other =>
        simp only [mergeRow] at h
        split at h
        · exact absurd h (by simp)
        · rename_i rest hrec
          simp only [Res.ok.injEq] at h
          subst h
          obtain ⟨hlen, hget⟩ := ih xs rest hrec
          refine ⟨by simp [hlen], ?_⟩
          intro j hj
          cases j with
          | zero => rfl
          | succ n =>
            simp only [List.get?_cons_succ]
            exact hget n (by simpa using hj)

/-- Helper: an index below the replication count reads the replicated
element. -/
theorem replicate_get? : ∀ (n j : Nat), j < n →
    (List.replicate n ([] : List Char)).get? j = some [] := by
  intro n
  induction n with
  | zero => intro j hj; exact absurd hj (Nat.not_lt_zero j)
  | succ n ih =>
    intro j hj
    cases j with
    | zero => rfl
    | succ k =>
      rw [List.replicate_succ]
      simp only [List.get?_cons_succ]
      exact ih k (Nat.lt_of_succ_lt_succ hj)

/-- Helper: `step2` over rows none of which is digit-leading merges them
all into the incoming accumulator, flushed once at the end; columns whose
cells are never strings keep their incoming content. -/
theorem step2_nondigit : ∀ (rs : List (List Cell)) (cur : List (List Char))
    (out l : List (List (List Char))),
    (∀ r ∈ rs, digitLead r = false) →
    step2 rs cur out = .ok l →
    ∃ m, l = out ++ [m] ∧
      ∀ j : Nat, (∀ r ∈ rs, isStrCell (r.get? j) = false) → m.get? j = cur.get? j := by
  intro rs
  induction rs with
  | nil =>
    intro cur out l _ h
    simp only [step2, Res.ok.injEq] at h
    subst h
    exact ⟨cur, rfl, fun j _ => rfl⟩
  | cons r rs ih =>
    intro cur out l hnd h
    cases r with
    | nil => simp [step2] at h
    | cons c0 rtl =>
      have hd : digitLeadCell c0 = false := hnd _ (List.mem_cons_self _ _)
      simp only [step2] at h
      split at h
      · rename_i hdig
        rw [hd] at hdig
        exact absurd hdig (by simp)
      · split at h
        · exact absurd h (by simp)
        · rename_i cur2 hmr
          obtain ⟨m, hl, hprop⟩ := ih cur2 out l (fun r hm => hnd r (List.mem_cons_of_mem _ hm)) h
          refine ⟨m, hl, ?_⟩
          intro j hj
          have hkeep := (mergeRow_skip (c0 :: rtl) cur cur2 hmr).2 j (hj _ (List.mem_cons_self _ _))
          rw [hprop j (fun r hm => hj r (List.mem_cons_of_mem _ hm)), hkeep]

/-- C10: during parameter assembly only textual cells contribute: a merge
leaves any column whose raw cell is not a string untouched, and a
parameter all of whose fragments are non-string at column `j` (within the
accumulator's width) assembles to the empty string at `j`. -/
theorem c10_numeric_cells_blank :
    (∀ (cur : List (List Char)) (row : List Cell) (res : List (List Char)) (j : Nat),
        mergeRow cur row = .ok res → isStrCell (row.get? j) = false →
        res.get? j = cur.get? j) ∧
    (∀ (r1 : List Cell) (rest : List (List Cell)) (cur : List (List Char))
        (out l : List (List (List Char))) (j : Nat),
        step2 (r1 :: rest) cur out = .ok l →
        digitLead r1 = true →
        (∀ r ∈ rest, digitLead r = false) →
        j < r1.length →
        (∀ r ∈ r1 :: rest, isStrCell (r.get? j) = false) →
        ∃ m, l = out ++ [cur, m] ∧ m.get? j = some []) := by
  refine ⟨fun cur row res j hm hj => (mergeRow_skip row cur res hm).2 j hj, ?_⟩
  intro r1 rest cur out l j hs hd1 hndrest hjlt hcells
  cases r1 with
  | nil => simp [digitLead] at hd1
  | cons c0 rtl =>
    have hdc : digitLeadCell c0 = true := hd1
    simp only [step2] at hs
    split at hs
    · split at hs
      · exact absurd hs (by simp)
      · rename_i cur2 hmr
        obtain ⟨m, hl, hprop⟩ := step2_nondigit rest cur2 (out ++ [cur]) l hndrest hs
        have hskip := (mergeRow_skip (c0 :: rtl) _ cur2 hmr).2 j
          (hcells _ (List.mem_cons_self _ _))
        refine ⟨m, ?_, ?_⟩
        · rw [hl]
          simp
        · rw [hprop j (fun r hm => hcells r (List.mem_cons_of_mem _ hm)), hskip,
            replicate_get? _ j hjlt]
    · rename_i hdig
      rw [hdc] at hdig
      exact absurd hdig (by simp)

/-- Witness for the assembly clause of `c10_numeric_cells_blank`: a
parameter whose second column holds only non-string fragments assembles to
the empty string there. -/
theorem c10_numeric_witness :
    step2 [[Cell.str (toL "1"), Cell.other], [Cell.other, Cell.other]] [toL "H"] [] =
      .ok [[toL "H"], [toL "1", []]] ∧
    ∃ m, ([[toL "H"], [toL "1", ([] : List Char)]] : List (List (List Char))) =
        [] ++ [[toL "H"], m] ∧ m.get? 1 = some [] :=
  ⟨by decide,
   c10_numeric_cells_blank.2 [Cell.str (toL "1"), Cell.other] [[Cell.other, Cell.other]]
     [toL "H"] [] [[toL "H"], [toL "1", []]] 1
     (by decide) (by decide) (by decide) (by decide) (by decide)⟩

end TapWater
